import Mathlib

/-!
Shallow embedding of the core game logic of the pokedexdle repository:
the UTC day-number date utility, the streak/aggregate statistics engine
(src/lib/actions/stats.ts), the client guess handler and hint level
(src/app/components/GameClient.tsx), the server guess submission
(src/lib/actions/guess.ts), the Roman-numeral decoder
(src/app/components/Hints.tsx), the evolution-stage BFS and the
Pokémon name search (pokemon.ts).
-/

namespace Pokedexdle

/-- Value of a list of decimal digit characters, most significant first. -/
def digitsVal (cs : List Char) : Nat :=
  cs.foldl (fun acc c => acc * 10 + (c.toNat - '0'.toNat)) 0

/-- JavaScript `Number(s)` as used on the segments of a "YYYY-MM-DD" split:
`none` models NaN.  `Number("") = 0`; a nonempty all-digit string parses to
its value; other strings (the forms this code path meets, e.g. "bad",
"date") give NaN.  Exotic numeric literals (signs, floats, hex,
whitespace) never arise from the date segments exercised here and are
modelled as NaN. -/
def jsNumber (s : String) : Option Int :=
  if s = "" then some 0
  else if s.data.all (fun c => c.isDigit) then some (digitsVal s.data)
  else none

/-- JavaScript `"….".split(sep)` for a single-character separator: split at
every occurrence, keeping empty segments. -/
def splitChar (sep : Char) : List Char → List String
  | [] => [""]
  | c :: rest =>
      let r := splitChar sep rest
      if c = sep then "" :: r
      else
        match r with
        | [] => [String.mk [c]]
        | s :: tail => String.mk (c :: s.data) :: tail

/-- Days since 1970-01-01 of the civil date (y, m, d) with m in 1..12
(d may be any offset), the standard days-from-civil computation that
`Date.UTC` realises at UTC midnight. -/
def daysFromCivil (y m d : Int) : Int :=
  let y1 : Int := if m ≤ 2 then y - 1 else y
  let era : Int := Int.fdiv y1 400
  let yoe : Int := y1 - era * 400
  let mp : Int := if m ≤ 2 then m + 9 else m - 3
  let doy : Int := (153 * mp + 2) / 5 + d - 1
  let doe : Int := yoe * 365 + yoe / 4 - yoe / 100 + doy
  era * 146097 + doe - 719468

/-- `Date.UTC(year, month - 1, day) / 86400000`: two-digit years map to
1900+year, out-of-range months roll over into years.  (The NaN cutoff for
dates beyond ±100000000 days is not modelled; no caller reaches it.) -/
def dateUtcDays (year month day : Int) : Int :=
  let yy : Int := if 0 ≤ year ∧ year ≤ 99 then year + 1900 else year
  let months : Int := yy * 12 + (month - 1)
  let y1 : Int := Int.fdiv months 12
  let m0 : Int := months - 12 * y1
  daysFromCivil y1 (m0 + 1) 1 + (day - 1)

/-- `toUtcDayNumber` from src/lib/actions/stats.ts: split on "-", parse the
three segments with `Number`, return null (`none`) when any of
year/month/day is falsy (0, NaN, or missing), else the UTC day number. -/
def toUtcDayNumber (dateString : String) : Option Int :=
  let parts := (splitChar '-' dateString.data).map jsNumber
  let year : Option Int := (parts[0]?).join
  let month : Option Int := (parts[1]?).join
  let day : Option Int := (parts[2]?).join
  match year, month, day with
  | some y, some m, some d =>
      if y = 0 ∨ m = 0 ∨ d = 0 then none else some (dateUtcDays y m d)
  | _, _, _ => none

/-- One row of the `games` query in `getUserStats`:
`row.daily_pokemon?.available_on` (missing modelled as `none`) and the
tri-state `won` column. -/
structure GameRow where
  available_on : Option String
  won : Option Bool
deriving DecidableEq, Repr

/-- One step of building the `byDate` map (insertion-ordered association
list): skip rows whose `available_on` is falsy (missing or empty string);
first occurrence of a date is inserted with `didWin`; later occurrences
only upgrade the entry to `true`. -/
def addRow (m : List (String × Bool)) (r : GameRow) : List (String × Bool) :=
  match r.available_on with
  | none => m
  | some s =>
      if s = "" then m
      else
        let didWin := r.won == some true
        if m.any (fun p => p.1 = s) then
          if didWin then m.map (fun p => if p.1 = s then (p.1, true) else p) else m
        else m ++ [(s, didWin)]

/-- State of the streak walk in `getUserStats` /
`calculateUnsignedStats`. -/
structure StreakState where
  best : Nat
  streak : Nat
  prev : Option Int
  current : Nat
deriving DecidableEq, Repr

/-- Body of the `dates.forEach` walk for one `(date, didWin)` entry;
`isLast` tells whether `index === dates.length - 1`.  Entries whose date
fails to parse return early (before the final-index check). -/
def streakStep (isLast : Bool) (st : StreakState) (e : String × Bool) : StreakState :=
  match toUtcDayNumber e.1 with
  | none => st
  | some day =>
      let st1 :=
        if e.2 then
          let streak' :=
            match st.prev with
            | some p => if day = p + 1 then st.streak + 1 else 1
            | none => 1
          { st with streak := streak', best := max st.best streak' }
        else { st with streak := 0 }
      let st2 := { st1 with prev := some day }
      if isLast then { st2 with current := if e.2 then st2.streak else 0 } else st2

/-- The full `forEach` walk over the sorted date entries. -/
def streakWalk : List (String × Bool) → StreakState → StreakState
  | [], st => st
  | e :: rest, st => streakWalk rest (streakStep rest.isEmpty st e)

/-- The `UserStats` result shape of src/lib/actions/stats.ts. -/
structure UserStats where
  totalGames : Nat
  totalWins : Nat
  currentStreak : Nat
  bestStreak : Nat
deriving DecidableEq, Repr

/-- Code-point lexicographic strict order on strings, the order
`localeCompare` induces on the ASCII date keys sorted here. -/
def charListLt : List Char → List Char → Bool
  | [], [] => false
  | [], _ :: _ => true
  | _ :: _, [] => false
  | a :: as, b :: bs =>
      if a.toNat < b.toNat then true
      else if b.toNat < a.toNat then false
      else charListLt as bs

/-- Insert `x` into an already sorted list, keeping earlier equal elements
first (stability; the date keys here are pairwise distinct anyway). -/
def insertSorted (le : α → α → Bool) (x : α) : List α → List α
  | [] => [x]
  | y :: ys => if le y x then y :: insertSorted le x ys else x :: y :: ys

/-- Stable comparison sort, standing in for `Array.prototype.sort` with the
`localeCompare` comparator (code-point order on the ASCII date keys). -/
def sortByLe (le : α → α → Bool) (l : List α) : List α :=
  l.foldl (fun acc x => insertSorted le x acc) []

/-- Core of `getUserStats` (src/lib/actions/stats.ts) on the fetched rows:
build the `byDate` map, sort its entries ascending by date
(`localeCompare` on the ASCII date keys is code-point order), run the
streak walk, and report `totalGames = data.length` and
`totalWins = data.filter(row => row.won === true).length`. -/
def getUserStats (rows : List GameRow) : UserStats :=
  let byDate := rows.foldl addRow []
  let dates := sortByLe (fun a b => !charListLt b.1.data a.1.data) byDate
  let final := streakWalk dates ⟨0, 0, none, 0⟩
  { totalGames := rows.length
    totalWins := (rows.filter (fun r => r.won == some true)).length
    currentStreak := final.current
    bestStreak := final.best }

/-- Build query rows from plain `(available_on, won)` pairs. -/
def mkRows (l : List (String × Bool)) : List GameRow :=
  l.map (fun p => { available_on := some p.1, won := some p.2 })

/-- `s.toLowerCase()` on the ASCII species/guess names handled here. -/
def jsToLower (s : String) : String :=
  String.mk (s.data.map Char.toLower)

/-- `s.trim()`: drop leading and trailing whitespace. -/
def jsTrim (s : String) : String :=
  String.mk (((s.data.dropWhile Char.isWhitespace).reverse.dropWhile Char.isWhitespace).reverse)

/-- Client-side per-game state of `GameClient`
(src/app/components/GameClient.tsx): the `attemptsUsed`, `won` and
`previousGuesses` pieces of React state. -/
structure ClientState where
  attemptsUsed : Nat
  won : Bool
  previousGuesses : List String
deriving DecidableEq, Repr

/-- Derived flag `gameOver = attemptsUsed >= maxAttempts && !won`. -/
def clientGameOver (maxAttempts : Nat) (st : ClientState) : Bool :=
  decide (maxAttempts ≤ st.attemptsUsed) && !st.won

/-- State effect of `handleGuess` in `GameClient`: return unchanged when
`gameOver || won`; otherwise append the guess, increment `attemptsUsed`,
and set `won` when the lowercased guess equals the lowercased answer. -/
def handleGuess (maxAttempts : Nat) (st : ClientState) (guessName pokemonName : String) : ClientState :=
  if clientGameOver maxAttempts st || st.won then st
  else
    let st1 : ClientState :=
      { st with
        previousGuesses := st.previousGuesses ++ [guessName]
        attemptsUsed := st.attemptsUsed + 1 }
    if jsToLower guessName = jsToLower pokemonName then { st1 with won := true } else st1

/-- The hint level `GameClient` passes to the `Hints` component:
`revealedHints = won ? maxAttempts : attemptsUsed`. -/
def hintLevel (maxAttempts : Nat) (won : Bool) (attemptsUsed : Nat) : Nat :=
  if won then maxAttempts else attemptsUsed

/-- One row of the `guesses` table as carried on a loaded game. -/
structure GuessRow where
  guess_name : String
  attempt_number : Nat
deriving DecidableEq, Repr

/-- A `games` row with its nested guesses, as `getOrCreateGame` returns it
(src/lib/actions/guess.ts). -/
structure Game where
  guesses : List GuessRow
  won : Option Bool
  is_finished : Bool
deriving DecidableEq, Repr

/-- `createGuess` (src/lib/actions/guess.ts): insert a guess row with
`attempt_number = game.guesses.length + 1`. -/
def createGuess (guessName : String) (g : Game) : Game :=
  { g with guesses := g.guesses ++ [{ guess_name := guessName, attempt_number := g.guesses.length + 1 }] }

/-- `endGame` (src/lib/actions/guess.ts): set `won` and `is_finished` on
the game row. -/
def endGame (won : Bool) (g : Game) : Game :=
  { g with won := some won, is_finished := true }

/-- The record `submitGuess` returns; `attemptsUsed` is an `Int` because
the anonymous branch returns the sentinel `-1`. -/
structure SubmitResult where
  isCorrect : Bool
  gameOver : Bool
  attemptsUsed : Int
  won : Bool
deriving DecidableEq, Repr

/-- Server action `submitGuess` (src/lib/actions/guess.ts).  `game?` is
the outcome of `getOrCreateGame` (`none`: not logged in / creation
failed).  Returns the result record and the stored game row after the
call's database effects (`createGuess`, and `endGame` when the game
ends). -/
def submitGuess (guessName correctPokemonName : String) (isUnlimited : Bool)
    (game? : Option Game) : SubmitResult × Option Game :=
  let isCorrect : Bool := jsToLower guessName == jsToLower correctPokemonName
  if isUnlimited then
    ({ isCorrect := isCorrect, gameOver := false, attemptsUsed := 0, won := isCorrect }, game?)
  else
    match game? with
    | none =>
        ({ isCorrect := isCorrect, gameOver := false, attemptsUsed := -1, won := isCorrect }, none)
    | some game =>
        let game1 := createGuess guessName game
        let attemptsUsed : Int := game.guesses.length + 1
        let maxAttempts : Int := 6
        let gameOver := decide (maxAttempts ≤ attemptsUsed) && !isCorrect
        let won := isCorrect
        let game2 := if won || gameOver then endGame won game1 else game1
        ({ isCorrect := isCorrect, gameOver := gameOver, attemptsUsed := attemptsUsed, won := won }, some game2)

/-- Symbol values of `romanToInt` (src/app/components/Hints.tsx); `none`
models an `undefined` map lookup. -/
def romanMap : Char → Option Int
  | 'I' => some 1
  | 'V' => some 5
  | 'X' => some 10
  | 'L' => some 50
  | 'C' => some 100
  | 'D' => some 500
  | 'M' => some 1000
  | _ => none

/-- The accumulation loop of `romanToInt`: at each position, look the next
symbol up with `|| 0` fallback, and subtract the current symbol when
strictly smaller than the next, else add it.  An unmapped current symbol
makes the JavaScript total NaN (modelled as `none`), which then sticks. -/
def romanLoop : List Char → Option Int → Option Int
  | [], total => total
  | c :: rest, total =>
      let next : Int := (match rest with | [] => none | c2 :: _ => romanMap c2).getD 0
      let total' : Option Int :=
        match romanMap c, total with
        | some cur, some t => some (if cur < next then t - cur else t + cur)
        | _, _ => none
      romanLoop rest total'

/-- `romanToInt` (src/app/components/Hints.tsx). -/
def romanToInt (roman : String) : Option Int :=
  romanLoop roman.data (some 0)

/-- The standard Roman numeral for each generation ordinal 1–9, the
encoding side of the claimed round trip. -/
def stdRoman : Nat → String
  | 1 => "I"
  | 2 => "II"
  | 3 => "III"
  | 4 => "IV"
  | 5 => "V"
  | 6 => "VI"
  | 7 => "VII"
  | 8 => "VIII"
  | 9 => "IX"
  | _ => ""

/-- A node of a PokéAPI evolution chain: a species name and the chain
nodes it evolves to. -/
inductive EvoNode : Type where
  | mk (species : String) (evolvesTo : List EvoNode)

/-- The species name at a node. -/
def EvoNode.species : EvoNode → String
  | .mk s _ => s

/-- The `evolves_to` children of a node. -/
def EvoNode.evolvesTo : EvoNode → List EvoNode
  | .mk _ c => c

/-- Total size of a list of nodes under `sizeOf`, bounded by the size of
the list itself; feeds the decreasing measure of the BFS queue. -/
theorem sum_map_sizeOf_lt (l : List EvoNode) : ((l.map sizeOf).sum) < sizeOf l := by
  induction l with
  | nil => simp
  | cons c t ih =>
      simp only [List.map_cons, List.sum_cons, List.cons.sizeOf_spec]
      omega

/-- The children of a node are strictly smaller than the node. -/
theorem sum_children_sizeOf_lt (n : EvoNode) : ((n.evolvesTo.map sizeOf).sum) < sizeOf n := by
  match n with
  | .mk s l =>
      have h := sum_map_sizeOf_lt l
      simp only [EvoNode.evolvesTo, EvoNode.mk.sizeOf_spec]
      omega

/-- The queue loop of `getEvolutionStage` (pokemon.ts): pop the front,
return its stage when the species matches, otherwise enqueue all of its
evolutions with stage + 1; an exhausted queue defaults to stage 1. -/
def bfsStage : List (EvoNode × Nat) → String → Nat
  | [], _ => 1
  | (n, stage) :: rest, name =>
      if n.species = name then stage
      else bfsStage (rest ++ n.evolvesTo.map (fun c => (c, stage + 1))) name
termination_by queue _ => ((queue.map (fun p => sizeOf p.1)).sum)
decreasing_by
  simp only [List.map_append, List.sum_append, List.map_cons, List.sum_cons]
  have hd : List.map (fun p : EvoNode × Nat => sizeOf p.1)
      (n.evolvesTo.map (fun c => (c, stage + 1))) = n.evolvesTo.map sizeOf := by
    rw [List.map_map]
    rfl
  rw [hd]
  have hn := sum_children_sizeOf_lt n
  omega

/-- `getEvolutionStage` (pokemon.ts), started on the root of the fetched
evolution chain with stage 1. -/
def getEvolutionStage (chain : EvoNode) (pokemonName : String) : Nat :=
  bfsStage [(chain, 1)] pokemonName

/-- An entry of the cached Pokémon list (`{ name, url }`). -/
structure PokemonEntry where
  name : String
  url : String
deriving DecidableEq, Repr

/-- JavaScript `s.includes(sub)`: `sub` occurs contiguously in `s`. -/
def jsIncludes (s sub : String) : Bool :=
  decide (sub.data <:+: s.data)

/-- `searchPokemon` (pokemon.ts) on an already populated cache: empty or
whitespace-only queries return `[]` before the cache is consulted;
otherwise filter the cached list by `name.includes(query.toLowerCase())`
and keep the first 10 matches. -/
def searchPokemon (cachedPokemonList : List PokemonEntry) (query : String) : List PokemonEntry :=
  if jsTrim query = "" then []
  else
    let lower := jsToLower query
    (cachedPokemonList.filter (fun p => jsIncludes p.name lower)).take 10

/-- A finished lost game: six guesses recorded, `won = false`,
`is_finished = true`. -/
def lostGame : Game :=
  { guesses := [⟨"a", 1⟩, ⟨"b", 2⟩, ⟨"c", 3⟩, ⟨"d", 4⟩, ⟨"e", 5⟩, ⟨"f", 6⟩]
    won := some false
    is_finished := true }

/-- Two rows for the same date, both wins. -/
def dupRows : List GameRow := mkRows [("2024-01-01", true), ("2024-01-01", true)]

/-- The malformed-date scenario input. -/
def rowsWithBad : List GameRow :=
  mkRows [("2024-01-01", true), ("bad-date", true), ("2024-01-02", true)]

/-- The malformed-date scenario input with the malformed entry removed. -/
def rowsWithoutBad : List GameRow := mkRows [("2024-01-01", true), ("2024-01-02", true)]

/-- The branching evolution chain A → B → {C, D}. -/
def chainABCD : EvoNode := .mk "A" [.mk "B" [.mk "C" [], .mk "D" []]]

/-- A cached search entry. -/
def pikaEntry : PokemonEntry := ⟨"pikachu", "url1"⟩

/-- A game with five recorded guesses, still in progress. -/
def almostDoneGame : Game :=
  { guesses := [⟨"a", 1⟩, ⟨"b", 2⟩, ⟨"c", 3⟩, ⟨"d", 4⟩, ⟨"e", 5⟩]
    won := none
    is_finished := false }

/-- C1 (counterexample): on a terminal game (Lost: six guesses, won =
false, finished), the server `submitGuess` is not a no-op — it appends a
seventh guess row and reports `attemptsUsed = 7`. -/
theorem submitGuess_terminal_counterexample :
    lostGame.guesses.length = 6 ∧ lostGame.won = some false ∧ lostGame.is_finished = true ∧
    (submitGuess "pidgey" "pikachu" false (some lostGame)).2.map (fun g => g.guesses.length)
      = some 7 ∧
    (submitGuess "pidgey" "pikachu" false (some lostGame)).1.attemptsUsed = 7 := by
  decide

/-- C1 (amended): the terminal no-op guard lives in the client
`handleGuess`, not in the server `submitGuess`: when the client state is
Won, or Lost because all attempts are used, `handleGuess` returns the
state unchanged (attempt count, guess log and won flag untouched). -/
theorem handleGuess_terminal_noop (maxA : Nat) (st : ClientState) (g p : String)
    (h : st.won = true ∨ (maxA ≤ st.attemptsUsed ∧ st.won = false)) :
    handleGuess maxA st g p = st := by
  unfold handleGuess clientGameOver
  rcases h with h | ⟨h1, h2⟩
  · simp [h]
  · simp [h1, h2]

/-- Witness for C1 (amended) at a concrete lost client state. -/
theorem handleGuess_terminal_noop_witness :
    handleGuess 6 ⟨6, false, []⟩ "eevee" "pikachu" = ⟨6, false, []⟩ :=
  handleGuess_terminal_noop 6 ⟨6, false, []⟩ "eevee" "pikachu" (Or.inr ⟨by decide, rfl⟩)

/-- C2 (counterexample): on two rows for the same date the engine reports
`totalGames = totalWins = 2`, while the deduplicated-by-date map has a
single entry — the totals are not computed from the deduplicated set. -/
theorem getUserStats_totals_counterexample :
    (getUserStats dupRows).totalGames = 2 ∧ (getUserStats dupRows).totalWins = 2 ∧
    (dupRows.foldl addRow []).length = 1 ∧
    (getUserStats dupRows).totalGames ≠ (dupRows.foldl addRow []).length := by
  decide

/-- C2 (amended): `totalGames` is the raw number of fetched rows and
`totalWins` the raw number of rows with `won === true`; deduplication by
date only feeds the streak computation. -/
theorem getUserStats_totals_raw_counts (rows : List GameRow) :
    (getUserStats rows).totalGames = rows.length ∧
    (getUserStats rows).totalWins = (rows.filter (fun r => r.won == some true)).length :=
  ⟨rfl, rfl⟩

/-- C3 (counterexample): the statistics for the list containing the
malformed "bad-date" entry differ from those for the list without it. -/
theorem getUserStats_malformed_counterexample :
    getUserStats rowsWithBad ≠ getUserStats rowsWithoutBad := by
  decide

/-- C3 (amended): the malformed entry is skipped by the streak walk but
still counted in the totals, and, because "bad-date" sorts after the ISO
dates and the final-index `currentStreak` assignment is skipped for
unparseable dates, `currentStreak` stays 0: the engine returns
{3, 3, 0, 2} with the malformed entry and {2, 2, 2, 2} without it (only
`bestStreak` is unaffected). -/
theorem getUserStats_malformed_values :
    getUserStats rowsWithBad = ⟨3, 3, 0, 2⟩ ∧
    getUserStats rowsWithoutBad = ⟨2, 2, 2, 2⟩ ∧
    toUtcDayNumber "bad-date" = none := by
  decide

/-- C4: on wins dated 2024-01-01, 2024-01-02, 2024-01-04 the engine
returns `bestStreak = 2` and `currentStreak = 1`, and indeed day
adjacency fails between 01-02 and 01-04. -/
theorem getUserStats_streak_break :
    (getUserStats (mkRows [("2024-01-01", true), ("2024-01-02", true), ("2024-01-04", true)])).bestStreak = 2 ∧
    (getUserStats (mkRows [("2024-01-01", true), ("2024-01-02", true), ("2024-01-04", true)])).currentStreak = 1 ∧
    toUtcDayNumber "2024-01-04" ≠ (toUtcDayNumber "2024-01-02").map (fun d => d + 1) := by
  decide

/-- C5: on the chain A → B → {C, D}, the BFS evolution stage of D is 3,
of A is 1, and of any species absent from the chain is the default 1. -/
theorem getEvolutionStage_bfs :
    getEvolutionStage chainABCD "D" = 3 ∧
    getEvolutionStage chainABCD "A" = 1 ∧
    (∀ name : String, name ≠ "A" → name ≠ "B" → name ≠ "C" → name ≠ "D" →
      getEvolutionStage chainABCD name = 1) := by
  refine ⟨?_, ?_, ?_⟩
  · simp [getEvolutionStage, bfsStage, chainABCD, EvoNode.species, EvoNode.evolvesTo]
  · simp [getEvolutionStage, bfsStage, chainABCD, EvoNode.species, EvoNode.evolvesTo]
  · intro name hA hB hC hD
    simp [getEvolutionStage, bfsStage, chainABCD, EvoNode.species, EvoNode.evolvesTo,
      Ne.symm hA, Ne.symm hB, Ne.symm hC, Ne.symm hD]

/-- Witness for C5 at a species name absent from the chain. -/
theorem getEvolutionStage_bfs_witness : getEvolutionStage chainABCD "pikachu" = 1 :=
  getEvolutionStage_bfs.2.2 "pikachu" (by decide) (by decide) (by decide) (by decide)

/-- C6: the hint level passed to the hint renderer equals `attemptsUsed`
(hence is non-decreasing in it) while the game is in progress,
`attemptsUsed` never decreases across a client guess, and the hint level
equals `MAX_ATTEMPTS = 6` whenever the game is Won, whatever
`attemptsUsed` is. -/
theorem hintLevel_monotone_won_max :
    (∀ a b : Nat, a ≤ b → hintLevel 6 false a ≤ hintLevel 6 false b) ∧
    (∀ a : Nat, hintLevel 6 false a = a) ∧
    (∀ a : Nat, hintLevel 6 true a = 6) ∧
    (∀ (st : ClientState) (g p : String), st.attemptsUsed ≤ (handleGuess 6 st g p).attemptsUsed) := by
  refine ⟨?_, ?_, ?_, ?_⟩
  · intro a b h
    exact h
  · intro a
    rfl
  · intro a
    rfl
  · intro st g p
    unfold handleGuess
    split
    · exact Nat.le_refl _
    · split <;> exact Nat.le_succ _

/-- Witness for C6 at concrete attempt counts. -/
theorem hintLevel_monotone_won_max_witness :
    hintLevel 6 false 2 ≤ hintLevel 6 false 5 ∧ hintLevel 6 true 1 = 6 :=
  ⟨hintLevel_monotone_won_max.1 2 5 (by decide), hintLevel_monotone_won_max.2.2.1 1⟩

/-- C7: decoding the standard Roman numeral of each generation ordinal
1–9 with `romanToInt` yields the ordinal back. -/
theorem romanToInt_round_trip (n : Nat) (h1 : 1 ≤ n) (h2 : n ≤ 9) :
    romanToInt (stdRoman n) = some ((n : Nat) : Int) := by
  interval_cases n <;> decide

/-- Witness for C7 at the subtractive numeral IX. -/
theorem romanToInt_round_trip_witness : romanToInt (stdRoman 9) = some ((9 : Nat) : Int) :=
  romanToInt_round_trip 9 (by decide) (by decide)

/-- C8: an empty or whitespace-only query returns the empty list, any
other query returns at most 10 entries, and every returned entry's name
contains the lowercased query as a contiguous substring. -/
theorem searchPokemon_spec (cachedPokemonList : List PokemonEntry) (query : String) :
    (jsTrim query = "" → searchPokemon cachedPokemonList query = []) ∧
    (searchPokemon cachedPokemonList query).length ≤ 10 ∧
    (∀ p ∈ searchPokemon cachedPokemonList query, (jsToLower query).data <:+: p.name.data) := by
  refine ⟨?_, ?_, ?_⟩
  · intro h
    simp [searchPokemon, h]
  · unfold searchPokemon
    split
    · simp
    · simp [List.length_take_le]
  · intro p hp
    unfold searchPokemon at hp
    split at hp
    · simp at hp
    · have hmem := List.take_subset 10 _ hp
      have hpred := (List.mem_filter.mp hmem).2
      exact of_decide_eq_true hpred

/-- Witness for C8: an all-whitespace query returns nothing, and a
matched entry contains the lowercased query. -/
theorem searchPokemon_spec_witness :
    searchPokemon [pikaEntry] " " = [] ∧ (jsToLower "KACH").data <:+: pikaEntry.name.data :=
  ⟨(searchPokemon_spec [pikaEntry] " ").1 (by decide),
   (searchPokemon_spec [pikaEntry] "KACH").2.2 pikaEntry (by decide)⟩

/-- The streak-walk invariant: the running streak and the last assigned
`currentStreak` never exceed the running best streak. -/
theorem streakStep_inv (isLast : Bool) (st : StreakState) (e : String × Bool)
    (h : st.current ≤ st.best ∧ st.streak ≤ st.best) :
    (streakStep isLast st e).current ≤ (streakStep isLast st e).best ∧
      (streakStep isLast st e).streak ≤ (streakStep isLast st e).best := by
  unfold streakStep
  cases hday : toUtcDayNumber e.1 with
  | none => exact h
  | some day =>
      cases hw : e.2 <;> cases hprev : st.prev <;> cases isLast <;>
        simp_all [Nat.max_def] <;> (try split_ifs) <;> omega

/-- The invariant holds after walking any list of entries. -/
theorem streakWalk_inv (l : List (String × Bool)) (st : StreakState)
    (h : st.current ≤ st.best ∧ st.streak ≤ st.best) :
    (streakWalk l st).current ≤ (streakWalk l st).best ∧
      (streakWalk l st).streak ≤ (streakWalk l st).best := by
  induction l generalizing st with
  | nil => exact h
  | cons e rest ih => exact ih _ (streakStep_inv rest.isEmpty st e h)

/-- C9: for every input row collection, the statistics engine reports
`currentStreak ≤ bestStreak`: the best streak is a running maximum that
has already absorbed the streak reported as current. -/
theorem getUserStats_current_le_best (rows : List GameRow) :
    (getUserStats rows).currentStreak ≤ (getUserStats rows).bestStreak :=
  (streakWalk_inv _ _ ⟨Nat.le_refl 0, Nat.le_refl 0⟩).1

/-- C10: in every branch of the server `submitGuess` (unlimited,
anonymous fallback, daily), the returned `won` equals `isCorrect`, and
`gameOver` is true only when the guess is incorrect — a correct guess on
the final attempt is a win, never game over. -/
theorem submitGuess_won_iff_correct (guessName correctPokemonName : String)
    (isUnlimited : Bool) (game? : Option Game) :
    ((submitGuess guessName correctPokemonName isUnlimited game?).1.won
      = (submitGuess guessName correctPokemonName isUnlimited game?).1.isCorrect) ∧
    ((submitGuess guessName correctPokemonName isUnlimited game?).1.gameOver = true →
      (submitGuess guessName correctPokemonName isUnlimited game?).1.isCorrect = false) := by
  unfold submitGuess
  dsimp only
  split
  · exact ⟨rfl, by simp⟩
  · cases game? with
    | none => exact ⟨rfl, by simp⟩
    | some game =>
        refine ⟨rfl, fun h => ?_⟩
        have h2 := (Bool.and_eq_true _ _).mp h
        simpa using h2.2

/-- Witness for C10: a wrong guess on the sixth attempt makes the game
over and incorrect. -/
theorem submitGuess_won_iff_correct_witness :
    ((submitGuess "eevee" "pikachu" false (some almostDoneGame)).1.won
      = (submitGuess "eevee" "pikachu" false (some almostDoneGame)).1.isCorrect) ∧
    (submitGuess "eevee" "pikachu" false (some almostDoneGame)).1.isCorrect = false :=
  ⟨(submitGuess_won_iff_correct "eevee" "pikachu" false (some almostDoneGame)).1,
   (submitGuess_won_iff_correct "eevee" "pikachu" false (some almostDoneGame)).2 (by decide)⟩

end Pokedexdle
